import Mathlib

/-!
Verification of the Layro layered-configuration resolver.

This file shallowly embeds the parts of the repository that the checked
claims are about:

  * `src/layro/converters.py` — `deep_merge`, `convert_value_to_type`,
    `dict_to_dataclass`;
  * `src/layro/loaders.py` — `load_yaml_config`;
  * `src/layro/manager.py` — the YAML-merging pipeline of
    `ConfigManager.parse_args` (its argparse pre-scan, the loading helpers
    `_load_default_yaml`, `_load_mode_default_yaml`, `_load_user_yaml`, the
    authoritative-mode computation and the layer fold).

Python runtime values (the YAML trees, CLI strings and coerced values) are
modeled by one inductive type `Val`; Python dicts are association lists with
unique keys and insertion order, matching dict iteration and item assignment.
Python floats are modeled as exact rationals; the decimal literals exercised
by the configuration layer are exact in both models.  Fallible code returns
`Except PyErr`, whose constructors mirror the exception classes raised by
the source.  The final tyro CLI pass (an external library call, spec section
4.4 step 9) is outside the embedded pipeline.
-/

/-- Python runtime value, covering everything the configuration pipeline
passes around: YAML scalars and trees, CLI strings, tuples produced by
literal parsing, and Path objects. Floats are modeled as exact rationals. -/
inductive Val where
  | none : Val
  | bool : Bool → Val
  | int : Int → Val
  | float : Rat → Val
  | str : String → Val
  | path : String → Val
  | list : List Val → Val
  | tup : List Val → Val
  | dict : List (String × Val) → Val

/-- A Python dict with string keys: association list in insertion order,
keys unique (a Python dict invariant). -/
abbrev Dict := List (String × Val)

/-- Python truthiness (`bool(v)`), as used by the `if content:` guards and
the `or` in `load_yaml_config`. `Path` objects are always truthy. -/
def Val.truthy : Val → Bool
  | .none => false
  | .bool b => b
  | .int n => n != 0
  | .float q => q != 0
  | .str s => s != ""
  | .path _ => true
  | .list l => !l.isEmpty
  | .tup l => !l.isEmpty
  | .dict d => !d.isEmpty

/-- `d[k]` lookup on a dict (first occurrence; dicts have unique keys). -/
def lookup : Dict → String → Option Val
  | [], _ => Option.none
  | (k2, v) :: rest, k => if k2 = k then some v else lookup rest k

/-- `k in d` on a dict. -/
def containsKey (d : Dict) (k : String) : Bool := (lookup d k).isSome

/-- `d[k] = v` assignment on a dict: replaces the entry in place when the
key is present, otherwise appends it (Python dict insertion order). -/
def setKey : Dict → String → Val → Dict
  | [], k, v => [(k, v)]
  | (k2, w) :: rest, k, v =>
      if k2 = k then (k, v) :: rest else (k2, w) :: setKey rest k v

mutual

/-- `converters.deep_merge(override, base)` (converters.py lines 16-38):
start from a copy of `base`; for each key of `override` in order, store
`mergedAt` of the override value and the current entry under that key. -/
def deep_merge : Dict → Dict → Dict
  | [], base => base
  | (k, v) :: rest, base => deep_merge rest (setKey base k (mergedAt v (lookup base k)))

/-- The per-key rule of `deep_merge`: when both the override value and the
base entry are dicts, merge them recursively; otherwise the override value
overwrites (converters.py lines 29-37). -/
def mergedAt (v : Val) (bv : Option Val) : Val :=
  match v, bv with
  | .dict m, some (.dict b) => .dict (deep_merge m b)
  | _, _ => v

end

/-- The keys of a dict are pairwise distinct (every Python dict satisfies
this). -/
def NodupKeys (d : Dict) : Prop := (d.map Prod.fst).Nodup

/-- Exceptions raised by the embedded code, one constructor per Python
exception class that the sources raise or catch. The spec names
FileNotFoundError `ConfigFileNotFound` and yaml.YAMLError
`ConfigParseError`. -/
inductive PyErr where
  | fileNotFound : String → PyErr
  | yamlError : String → PyErr
  | valueError : String → PyErr
  | typeError : String → PyErr
  | syntaxError : String → PyErr
  | keyError : String → PyErr
  | stopIteration : PyErr

/-- A single-quote character, written via its code point. -/
def sqml : String := "\x27"

mutual

/-- Python repr() of a value. Scalar renderings are exact; the float
rendering is schematic because floats are modeled as rationals. Only
scalar renderings reach the claims (mode-default file names and error
messages). -/
def pyReprFun : Val → String
  | .none => "None"
  | .bool true => "True"
  | .bool false => "False"
  | .int n => toString n
  | .float q => toString q
  | .str s => sqml ++ s ++ sqml
  | .path p => "PosixPath(" ++ sqml ++ p ++ sqml ++ ")"
  | .list l => "[" ++ pyReprSeq l ++ "]"
  | .tup l => "(" ++ pyReprSeq l ++ ")"
  | .dict d => "\x7b" ++ pyReprEntries d ++ "\x7d"

def pyReprSeq : List Val → String
  | [] => ""
  | [x] => pyReprFun x
  | x :: xs => pyReprFun x ++ ", " ++ pyReprSeq xs

def pyReprEntries : List (String × Val) → String
  | [] => ""
  | [(k, v)] => sqml ++ k ++ sqml ++ ": " ++ pyReprFun v
  | (k, v) :: xs => sqml ++ k ++ sqml ++ ": " ++ pyReprFun v ++ ", " ++ pyReprEntries xs

end

/-- Python str() of a value, as used by f-string interpolation (the
mode-default file name) and by coercion to the str type. -/
def pyStrFun : Val → String
  | .str s => s
  | .path p => p
  | v => pyReprFun v

/-- Python type name of a value, for error messages. -/
def pyTypeNameOf : Val → String
  | .none => "NoneType"
  | .bool _ => "bool"
  | .int _ => "int"
  | .float _ => "float"
  | .str _ => "str"
  | .path _ => "PosixPath"
  | .list _ => "list"
  | .tup _ => "tuple"
  | .dict _ => "dict"

/-- The file system visible to the loaders: `Option.none` when the path
does not exist, otherwise the outcome of parsing the file with
yaml.safe_load (`Except.error` carries the parser diagnostic for malformed
content). -/
def FS : Type := String → Option (Except String Val)

/-- `loaders.load_yaml_config` (loaders.py lines 13-33): raise
FileNotFoundError when the path does not exist, re-raise yaml.YAMLError
with the path on a parse failure, and replace a falsy parse result by an
empty dict (the `safe_load(f) or` fallback on line 31). -/
def load_yaml_config (fs : FS) (file_path : String) : Except PyErr Val :=
  match fs file_path with
  | Option.none => .error (.fileNotFound ("Config file not found: " ++ file_path))
  | some (.error e) =>
      .error (.yamlError ("Error parsing YAML file " ++ file_path ++ ": " ++ e))
  | some (.ok v) => .ok (if v.truthy then v else .dict [])

/-- The configuration of a ConfigManager instance, together with the
dataclass defaults of its config class flattened by dataclass_to_dict
(manager.py lines 131-132). -/
structure Manager where
  default_config_dir : String
  mode_field : Option String
  config_field : String
  dataclassDefaults : Dict

def defaultYamlPath (M : Manager) : String :=
  M.default_config_dir ++ "/default.yaml"

def modeYamlPath (M : Manager) (m : String) : String :=
  M.default_config_dir ++ "/default_" ++ m ++ ".yaml"

/-- `ConfigManager._load_default_yaml` (manager.py lines 197-206): an
absent default.yaml is an empty tree, a present one is loaded strictly. -/
def load_default_yaml (M : Manager) (fs : FS) : Except PyErr Val :=
  if (fs (defaultYamlPath M)).isNone then .ok (.dict [])
  else load_yaml_config fs (defaultYamlPath M)

/-- `ConfigManager._load_mode_default_yaml` (manager.py lines 208-217):
a falsy mode value or an absent mode-default file yields an empty tree. -/
def load_mode_default_yaml (M : Manager) (fs : FS) (mode_value : Val) : Except PyErr Val :=
  if !mode_value.truthy then .ok (.dict [])
  else
    let p := modeYamlPath M (pyStrFun mode_value)
    if (fs p).isNone then .ok (.dict []) else load_yaml_config fs p

/-- `ConfigManager._load_user_yaml` (manager.py lines 219-224): a missing
or unset user path yields an empty tree WITHOUT an error (the
`not user_config_path.exists()` guard on line 221); only a present file is
handed to load_yaml_config. -/
def load_user_yaml (fs : FS) (user_config_path : Option String) : Except PyErr Val :=
  match user_config_path with
  | Option.none => .ok (.dict [])
  | some p => if (fs p).isNone then .ok (.dict []) else load_yaml_config fs p

/-- The argparse pre-scan of parse_args (manager.py lines 90-112) for one
destination: the stored value of the LAST occurrence of any of the given
flags, in the forms `--flag value` and `--flag=value`; unrelated arguments
are ignored (parse_known_args). Abbreviated flag spellings and a trailing
flag without a value (argparse exits on those) are outside the modeled
scope. -/
def preScanFrom (flags : List String) : List String → Option String → Option String
  | [], acc => acc
  | a :: rest, acc =>
      if flags.contains a then
        match rest with
        | v :: rest2 => preScanFrom flags rest2 (some v)
        | [] => acc
      else
        match flags.find? (fun f => (f ++ "=").data.isPrefixOf a.data) with
        | some f => preScanFrom flags rest (some ⟨a.data.drop (f ++ "=").data.length⟩)
        | Option.none => preScanFrom flags rest acc

def preScanLast (flags : List String) (argv : List String) : Option String :=
  preScanFrom flags argv Option.none

/-- The flag spellings argparse accepts for the mode field: the dashed
variant, plus the original spelling when it differs (manager.py lines
102-109). -/
def dashedName (s : String) : String :=
  ⟨s.data.map (fun c => if c = '_' then '-' else c)⟩

def modeFlags (mf : String) : List String :=
  if mf = dashedName mf then ["--" ++ dashedName mf]
  else ["--" ++ dashedName mf, "--" ++ mf]

/-- Python substring test `k in s`. -/
def strContains (s k : String) : Bool :=
  if k.data.isEmpty then true
  else s.data.tails.any (fun t => k.data.isPrefixOf t)

/-- Python `key in tree` on a parsed YAML tree, as `parse_args` runs it on
user and default trees (manager.py lines 148, 150). A string needle equals
only an equal string element. -/
def pyContainsVal : Val → String → Except PyErr Bool
  | .dict d, k => .ok (containsKey d k)
  | .list l, k => .ok (l.any (fun v => match v with | .str s => s == k | _ => false))
  | .tup l, k => .ok (l.any (fun v => match v with | .str s => s == k | _ => false))
  | .str s, k => .ok (strContains s k)
  | v, _ => .error (.typeError ("argument of type " ++ pyTypeNameOf v ++ " is not iterable"))

/-- Python `tree[key]` on a parsed YAML tree (manager.py lines 149, 151). -/
def pyGetItemVal : Val → String → Except PyErr Val
  | .dict d, k =>
      (match lookup d k with
       | some v => .ok v
       | Option.none => .error (.keyError k))
  | v, _ => .error (.typeError (pyTypeNameOf v ++ " indices must be integers"))

/-- The authoritative-mode computation of parse_args (manager.py lines
144-153): the pre-parsed CLI value when truthy, else the mode field of the
(truthy) user tree when present, else of the (truthy) base default tree,
else the dataclass default of the mode field (None when absent). -/
def cliModeVal : Option String → Val
  | some s => .str s
  | Option.none => .none

def authMode (M : Manager) (cli_mode_value : Option String)
    (user_yaml_content default_yaml_content : Val) : Except PyErr Val := do
  let m0 : Val := cliModeVal cli_mode_value
  match M.mode_field with
  | Option.none => pure m0
  | some mf =>
      if m0.truthy then pure m0
      else do
        let inUser ← if user_yaml_content.truthy then pyContainsVal user_yaml_content mf
                     else pure false
        if inUser then pyGetItemVal user_yaml_content mf
        else do
          let inDflt ← if default_yaml_content.truthy then pyContainsVal default_yaml_content mf
                       else pure false
          if inDflt then pyGetItemVal default_yaml_content mf
          else pure ((lookup M.dataclassDefaults mf).getD .none)

/-- One `deep_merge(content, accumulated)` call of parse_args. Iterating
override.items() on a non-dict content raises AttributeError in Python,
modeled as a typeError-kind failure. -/
def mergeStep (v : Val) (t : Dict) : Except PyErr Dict :=
  match v with
  | .dict d => .ok (deep_merge d t)
  | _ => .error (.typeError "deep_merge override is not a dict")

/-- The guarded merge `if content: acc = deep_merge(content, acc)` used at
each stage of parse_args (manager.py lines 137-138, 160-161, 165-166). -/
def mergeGuard (v : Val) (t : Dict) : Except PyErr Dict :=
  if v.truthy then mergeStep v t else pure t

/-- The layer fold of parse_args (manager.py lines 130-167): base default
over the dataclass defaults, then the mode default, then the user tree,
each later layer taking priority. -/
def foldLayers (dd : Dict) (dflt mdc user : Val) : Except PyErr Dict := do
  let t1 ← mergeGuard dflt dd
  let t2 ← mergeGuard mdc t1
  mergeGuard user t2

/-- Step e of parse_args (manager.py lines 157-162): the mode-default file
is consulted only when a mode field is configured and the authoritative
mode is truthy; otherwise the layer is an empty tree. -/
def modeLayer (M : Manager) (fs : FS) (am : Val) : Except PyErr Val :=
  match M.mode_field with
  | some _ => if am.truthy then load_mode_default_yaml M fs am else pure (.dict [])
  | Option.none => pure (.dict [])

/-- The outcome of the YAML-resolution pipeline: the merged tree handed to
dict_to_dataclass and tyro, the authoritative mode, and the pre-scanned
user config path. -/
structure Resolved where
  tree : Dict
  auth_mode : Val
  user_path : Option String

/-- The YAML-resolution pipeline of ConfigManager.parse_args (manager.py
lines 86-170), stopping where the merged tree is handed to
dict_to_dataclass and to the external tyro CLI pass: pre-scan the directive
flags, load the layers, determine the authoritative mode, and fold. The
fold is performed after all loads; this collapses only the ordering of two
exceptions in a run where both the base layer is a non-mapping and the user
file is unreadable (both runs are fatal either way). -/
def parse_args_tree (M : Manager) (fs : FS) (argv : List String) : Except PyErr Resolved := do
  let user_config_path := preScanLast ["--" ++ M.config_field] argv
  let cli_mode_value : Option String :=
    match M.mode_field with
    | some mf => preScanLast (modeFlags mf) argv
    | Option.none => Option.none
  let default_yaml_content ← load_default_yaml M fs
  let user_yaml_content ← load_user_yaml fs user_config_path
  let am ← authMode M cli_mode_value user_yaml_content default_yaml_content
  let mdc ← modeLayer M fs am
  let tree ← foldLayers M.dataclassDefaults default_yaml_content mdc user_yaml_content
  pure ⟨tree, am, user_config_path⟩

/-- The manager and file system of the mode-circularity acceptance
scenario: the base default declares mode "basic", the user file declares
mode "advanced", default_advanced.yaml declares value 200 and
default_special.yaml declares value 300. -/
def c5Manager : Manager :=
  ⟨"configs", some "mode", "config",
   [("config", Val.none), ("mode", Val.str ""), ("value", Val.int 0)]⟩

def c5FS : FS := fun p =>
  if p = "configs/default.yaml" then
    some (.ok (Val.dict [("mode", Val.str "basic"), ("value", Val.int 10)]))
  else if p = "configs/default_advanced.yaml" then
    some (.ok (Val.dict [("value", Val.int 200)]))
  else if p = "configs/default_special.yaml" then
    some (.ok (Val.dict [("value", Val.int 300)]))
  else if p = "user.yaml" then
    some (.ok (Val.dict [("mode", Val.str "advanced")]))
  else Option.none

/-- Python type descriptors, as convert_value_to_type dispatches on them
via typing introspection: the basic targets, `type(None)` (appearing among
Union arguments), `List[T]`, `Union[...]`, dataclass types (carrying field
name, type hint and optional default, as read by dict_to_dataclass), and
any other annotation (for which convert_value_to_type returns the value
unchanged, converters.py line 116). -/
inductive PyType where
  | int : PyType
  | float : PyType
  | str : PyType
  | bool : PyType
  | path : PyType
  | noneType : PyType
  | list : PyType → PyType
  | union : List PyType → PyType
  | dataclass : List (String × PyType × Option Val) → PyType
  | other : PyType

def isNoneTypeDesc : PyType → Bool
  | .noneType => true
  | _ => false

mutual

/-- Schematic rendering of a type annotation for error messages; only the
fact that every listed type is named matters to the claims. -/
def typeNamePy : PyType → String
  | .int => "<class " ++ sqml ++ "int" ++ sqml ++ ">"
  | .float => "<class " ++ sqml ++ "float" ++ sqml ++ ">"
  | .str => "<class " ++ sqml ++ "str" ++ sqml ++ ">"
  | .bool => "<class " ++ sqml ++ "bool" ++ sqml ++ ">"
  | .path => "<class " ++ sqml ++ "pathlib.Path" ++ sqml ++ ">"
  | .noneType => "<class " ++ sqml ++ "NoneType" ++ sqml ++ ">"
  | .list t => "typing.List[" ++ typeNamePy t ++ "]"
  | .union ts => "typing.Union[" ++ typeNamesJoin ts ++ "]"
  | .dataclass _ => "<dataclass>"
  | .other => "<class object>"

def typeNamesJoin : List PyType → String
  | [] => ""
  | [t] => typeNamePy t
  | t :: ts => typeNamePy t ++ ", " ++ typeNamesJoin ts

end

/-- The message of the ValueError raised when no Union alternative matches
(converters.py line 79): it renders the value and every attempted type. -/
def unionErrMsg (v : Val) (args : List PyType) : String :=
  "Could not convert " ++ pyStrFun v ++ " to any of (" ++ typeNamesJoin args ++ ")"

def digitsToNat (ds : List Char) : Nat :=
  ds.foldl (fun n c => 10 * n + (c.toNat - 48)) 0

/-- Mantissa lexer: leading digits, optionally a decimal point and more
digits; fails when no digit is present. Returns the mantissa, the number
of fractional digits, whether a point was seen, and the rest. -/
def lexDigitsPart (cs1 : List Char) : Option (Nat × Nat × Bool × List Char) :=
  let (ip, cs2) := cs1.span Char.isDigit
  match cs2 with
  | '.' :: rest =>
      let (fp, cs3) := rest.span Char.isDigit
      if ip.isEmpty && fp.isEmpty then Option.none
      else some (digitsToNat (ip ++ fp), fp.length, true, cs3)
  | _ => if ip.isEmpty then Option.none else some (digitsToNat ip, 0, false, cs2)

/-- Exponent lexer: an optional e/E part with signed digits. -/
def lexExponent (cs : List Char) : Option (Int × Bool × List Char) :=
  match cs with
  | c :: rest =>
      if c = 'e' || c = 'E' then
        let (eneg, rest2) :=
          match rest with
          | '-' :: r => (true, r)
          | '+' :: r => (false, r)
          | _ => (false, rest)
        let (ed, rest3) := rest2.span Char.isDigit
        if ed.isEmpty then Option.none
        else some ((if eneg then -(digitsToNat ed : Int) else (digitsToNat ed : Int)), true, rest3)
      else some (0, false, cs)
  | [] => some (0, false, [])

/-- Numeric literal lexer shared by the float constructor model and the
literal parser: optional sign, mantissa, optional exponent. Yields an int
for pure integer syntax and a float (exact rational) otherwise. -/
def lexNumber (cs0 : List Char) : Option (Val × List Char) :=
  let (neg, cs1) :=
    match cs0 with
    | '-' :: rest => (true, rest)
    | '+' :: rest => (false, rest)
    | _ => (false, cs0)
  match lexDigitsPart cs1 with
  | Option.none => Option.none
  | some (mant, flen, isF, cs2) =>
      match lexExponent cs2 with
      | Option.none => Option.none
      | some (ex, hasExp, cs3) =>
          if isF || hasExp then
            let e10 : Int := ex - flen
            let mag : Rat :=
              if 0 ≤ e10 then (mant : Rat) * (10 : Rat) ^ e10.toNat
              else (mant : Rat) / (10 : Rat) ^ (-e10).toNat
            some (.float (if neg then -mag else mag), cs3)
          else
            some (.int (if neg then -(mant : Int) else (mant : Int)), cs3)

def pyStripChars (cs : List Char) : List Char :=
  ((cs.dropWhile Char.isWhitespace).reverse.dropWhile Char.isWhitespace).reverse

/-- Python str.strip() with no argument: remove surrounding whitespace. -/
def pyStrip (s : String) : String := ⟨pyStripChars s.data⟩

/-- Python str.lower(), ASCII-faithful. -/
def pyLower (s : String) : String := ⟨s.data.map Char.toLower⟩

/-- Python float(string) on finite decimal literals: surrounding
whitespace is ignored; inf/nan and underscore digit separators are outside
the modeled scope. -/
def parseFloat? (s : String) : Option Rat :=
  match lexNumber (pyStripChars s.data) with
  | some (.float q, []) => some q
  | some (.int n, []) => some (n : Rat)
  | _ => Option.none

/-- Python int(float): truncation toward zero. -/
def ratTrunc (q : Rat) : Int :=
  if q < 0 then -(((-q).num.toNat / (-q).den : Nat) : Int)
  else ((q.num.toNat / q.den : Nat) : Int)

/-- Python int(value) for non-string values. -/
def pyIntOf : Val → Except PyErr Int
  | .int n => .ok n
  | .float q => .ok (ratTrunc q)
  | .bool b => .ok (if b then 1 else 0)
  | v => .error (.typeError ("int() argument must be a number, not " ++ pyTypeNameOf v))

/-- Python float(value). -/
def pyFloatOf : Val → Except PyErr Rat
  | .str s =>
      (match parseFloat? s with
       | some q => .ok q
       | Option.none =>
           .error (.valueError ("could not convert string to float: " ++ sqml ++ s ++ sqml)))
  | .int n => .ok (n : Rat)
  | .float q => .ok q
  | .bool b => .ok (if b then 1 else 0)
  | v => .error (.typeError ("float() argument must be a string or a number, not "
      ++ pyTypeNameOf v))

def skipWs (cs : List Char) : List Char := cs.dropWhile Char.isWhitespace

/-- String literal body after the opening quote: everything up to the next
matching quote (escape sequences are outside the modeled scope). -/
def lexStringLit (q : Char) (cs : List Char) : Option (String × List Char) :=
  let (body, rest) := cs.span (fun c => c ≠ q)
  match rest with
  | _ :: rest2 => some (⟨body⟩, rest2)
  | [] => Option.none

def quoteChar1 : Char := Char.ofNat 39

mutual

/-- One expression of the Python literal grammar, fuel-bounded: list,
parenthesized expression or tuple, string, True/False/None, or number.
Each recursion level consumes at least one input character, so fuel equal
to the input length plus one never runs out. -/
def parseLitExpr : Nat → List Char → Option (Val × List Char)
  | 0, _ => Option.none
  | Nat.succ fuel, cs0 =>
      let cs := skipWs cs0
      match cs with
      | [] => Option.none
      | c :: rest =>
          if c = '[' then
            match parseLitElems fuel rest ']' with
            | some (vs, rest2) => some (.list vs, rest2)
            | Option.none => Option.none
          else if c = '(' then parseLitParen fuel rest
          else if c = '"' || c = quoteChar1 then
            match lexStringLit c rest with
            | some (s, rest2) => some (.str s, rest2)
            | Option.none => Option.none
          else if c.isAlpha then
            let (w, rest2) := cs.span Char.isAlpha
            if (⟨w⟩ : String) = "True" then some (.bool true, rest2)
            else if (⟨w⟩ : String) = "False" then some (.bool false, rest2)
            else if (⟨w⟩ : String) = "None" then some (.none, rest2)
            else Option.none
          else lexNumber cs

/-- Comma-separated elements up to a closing bracket, trailing comma
allowed. -/
def parseLitElems : Nat → List Char → Char → Option (List Val × List Char)
  | 0, _, _ => Option.none
  | Nat.succ fuel, cs0, close =>
      let cs := skipWs cs0
      match cs with
      | c :: rest =>
          if c = close then some ([], rest)
          else
            (match parseLitExpr fuel cs with
             | Option.none => Option.none
             | some (v, cs2) =>
                 match skipWs cs2 with
                 | c2 :: rest2 =>
                     if c2 = close then some ([v], rest2)
                     else if c2 = ',' then
                       match parseLitElems fuel rest2 close with
                       | some (vs, rest3) => some (v :: vs, rest3)
                       | Option.none => Option.none
                     else Option.none
                 | [] => Option.none)
      | [] => Option.none

/-- Content after an opening parenthesis: the empty tuple, a parenthesized
expression, or a tuple of one or more elements. -/
def parseLitParen : Nat → List Char → Option (Val × List Char)
  | 0, _ => Option.none
  | Nat.succ fuel, cs0 =>
      let cs := skipWs cs0
      match cs with
      | c :: rest =>
          if c = ')' then some (.tup [], rest)
          else
            (match parseLitExpr fuel cs with
             | Option.none => Option.none
             | some (v, cs2) =>
                 match skipWs cs2 with
                 | c2 :: rest2 =>
                     if c2 = ')' then some (v, rest2)
                     else if c2 = ',' then
                       match skipWs rest2 with
                       | c3 :: rest3 =>
                           if c3 = ')' then some (.tup [v], rest3)
                           else
                             (match parseLitElems fuel rest2 ')' with
                              | some (vs, rest4) => some (.tup (v :: vs), rest4)
                              | Option.none => Option.none)
                       | [] => Option.none
                     else Option.none
                 | [] => Option.none)
      | [] => Option.none

/-- Comma-separated expressions up to the end of input (a bare top-level
tuple), trailing comma allowed. -/
def parseLitBare : Nat → List Char → Option (List Val)
  | 0, _ => Option.none
  | Nat.succ fuel, cs0 =>
      let cs := skipWs cs0
      match cs with
      | [] => some []
      | _ =>
          match parseLitExpr fuel cs with
          | Option.none => Option.none
          | some (v, cs2) =>
              match skipWs cs2 with
              | [] => some [v]
              | c :: rest =>
                  if c = ',' then
                    match parseLitBare fuel rest with
                    | some vs => some (v :: vs)
                    | Option.none => Option.none
                  else Option.none

end

/-- ast.literal_eval (converters.py line 100), restricted to the literal
forms configuration values use: numbers with optional sign, quoted strings
without escapes, True/False/None, lists, tuples (parenthesized and bare
top-level), nested arbitrarily, with whitespace. Dict and set literals,
escape sequences, complex numbers and inf/nan are outside the modeled
subset and parse as failure. `Option.none` stands for the ValueError or
SyntaxError the real call raises, both of which line 104 catches alike. -/
def pyLiteralEval (s : String) : Option Val :=
  let cs := s.data
  let fuel := cs.length + 1
  match parseLitExpr fuel cs with
  | Option.none => Option.none
  | some (v, rest) =>
      match skipWs rest with
      | [] => some v
      | c :: rest2 =>
          if c = ',' then
            match parseLitBare fuel rest2 with
            | some vs => some (.tup (v :: vs))
            | Option.none => Option.none
          else Option.none

/-- Rendering of a raised exception, as Python interpolates it into a
wrapping message. -/
def pyErrText : PyErr → String
  | .fileNotFound m => m
  | .yamlError m => m
  | .valueError m => m
  | .typeError m => m
  | .syntaxError m => m
  | .keyError m => m
  | .stopIteration => "StopIteration"

/-- Python value.split(",") : split at every comma, keeping empty parts. -/
def splitCommaChars : List Char → List (List Char)
  | [] => [[]]
  | c :: rest =>
      if c = ',' then [] :: splitCommaChars rest
      else
        match splitCommaChars rest with
        | part :: parts => (c :: part) :: parts
        | [] => [[c]]

def pySplitComma (s : String) : List String :=
  (splitCommaChars s.data).map (fun cs => (⟨cs⟩ : String))

mutual

/-- `converters.convert_value_to_type(value, target_type)` (converters.py
lines 41-116): null propagates; an Optional unwraps to its inner type and
continues with the basic cases; any other Union tries each alternative in
order; otherwise the basic cases apply. -/
def convert_value_to_type (value : Val) (target_type : PyType) : Except PyErr Val :=
  match value with
  | .none => .ok .none
  | v =>
      match target_type with
      | .union args =>
          if args.length == 2 && args.any isNoneTypeDesc then
            match args with
            | [a, b] => if isNoneTypeDesc a then convertBasic v b else convertBasic v a
            | _ => .error .stopIteration
          else tryUnionArms v args args
      | t => convertBasic v t
termination_by (sizeOf target_type, 2, 0)

/-- The basic cases of convert_value_to_type (converters.py lines 82-116):
bool, int, float, str, Path, List[T], and the final `return value` for any
other annotation (which is also where a nested Union after an Optional
unwrap lands, since the code does not recompute the origin). -/
def convertBasic (v : Val) (t : PyType) : Except PyErr Val :=
  match t with
  | .bool =>
      (match v with
       | .str s => .ok (.bool (["true", "yes", "1", "y"].contains (pyLower s)))
       | _ => .ok (.bool v.truthy))
  | .int =>
      (match v with
       | .str s => (pyFloatOf (.str s)).map (fun q => .int (ratTrunc q))
       | _ => (pyIntOf v).map (fun n => .int n))
  | .float => (pyFloatOf v).map (fun q => .float q)
  | .str => .ok (.str (pyStrFun v))
  | .path =>
      (match v with
       | .str s => .ok (.path s)
       | .path p => .ok (.path p)
       | _ => .error (.typeError ("argument should be a str or an os.PathLike object, not "
           ++ pyTypeNameOf v)))
  | .list item_type =>
      (match v with
       | .str s =>
           (match (match pyLiteralEval s with
                   | some (.list l) => convertEach l item_type
                   | some _ => .error (.valueError "String did not evaluate to a list.")
                   | Option.none => .error (.syntaxError "malformed literal")) with
            | .ok r => .ok (.list r)
            | .error (.valueError _) => listFallback s item_type
            | .error (.syntaxError _) => listFallback s item_type
            | .error e => .error e)
       | .list l => (convertEach l item_type).map (fun r => .list r)
       | _ => .error (.valueError ("Expected list or string representation of a list, got "
           ++ pyTypeNameOf v)))
  | _ => .ok v
termination_by (sizeOf t, 1, 0)

/-- The Union loop of convert_value_to_type (converters.py lines 74-79):
try each alternative, continuing on ValueError or TypeError; when the
arms are exhausted, raise a ValueError naming every attempted type. -/
def tryUnionArms (v : Val) (rem all : List PyType) : Except PyErr Val :=
  match rem with
  | [] => .error (.valueError (unionErrMsg v all))
  | t :: rest =>
      match convert_value_to_type v t with
      | .ok w => .ok w
      | .error (.valueError _) => tryUnionArms v rest all
      | .error (.typeError _) => tryUnionArms v rest all
      | .error e => .error e
termination_by (sizeOf rem, 0, 0)

/-- Elementwise coercion `[convert_value_to_type(item, item_type) for item
in ...]`, failing on the first failing element. -/
def convertEach (l : List Val) (t : PyType) : Except PyErr (List Val) :=
  match l with
  | [] => .ok []
  | x :: xs =>
      match convert_value_to_type x t with
      | .ok w => (convertEach xs t).map (fun ws => w :: ws)
      | .error e => .error e
termination_by (sizeOf t, 3, l.length)

/-- The comma-split fallback of the textual list coercion (converters.py
lines 104-109): split on commas, strip each token, coerce each against the
item type; any failure there is re-raised as a ValueError naming the
string, the item type and the original error. -/
def listFallback (s : String) (item_type : PyType) : Except PyErr Val :=
  match convertEach ((pySplitComma s).map (fun tok => .str (pyStrip tok))) item_type with
  | .ok r => .ok (.list r)
  | .error e =>
      .error (.valueError ("Could not parse string " ++ sqml ++ s ++ sqml
        ++ " as list for item type " ++ typeNamePy item_type
        ++ ". Original error: " ++ pyErrText e))

termination_by (sizeOf item_type, 4, 0)

end

/-- The exception kinds the Union loop of convert_value_to_type catches
(converters.py line 77): ValueError and TypeError. -/
def isCaughtErr : PyErr → Bool
  | .valueError _ => true
  | .typeError _ => true
  | _ => false

/-- The dataclass instantiation `dataclass_type(**field_values)`
(converters.py line 201): each declared field takes its converted value
when present in field_values, else its declared default; a field with
neither raises TypeError, re-raised with context (line 204). The instance
is represented by its field assignment in declaration order. -/
def initFields (fvals : List (String × Val)) :
    List (String × PyType × Option Val) → Except PyErr (List (String × Val))
  | [] => .ok []
  | (n, _, dflt) :: rest =>
      match lookup fvals n, dflt with
      | some v, _ => (initFields fvals rest).map (fun ws => (n, v) :: ws)
      | Option.none, some d => (initFields fvals rest).map (fun ws => (n, d) :: ws)
      | Option.none, Option.none =>
          .error (.typeError ("Error instantiating dataclass: missing required argument " ++ n))

mutual

/-- `converters.dict_to_dataclass(data, dataclass_type)` (converters.py
lines 146-204): collect field_values from the declared fields whose names
the input holds, converting each, then instantiate. Input keys that are
not declared fields are never consulted. -/
def dict_to_dataclass (data : Val) (flds : List (String × PyType × Option Val)) :
    Except PyErr Val :=
  match buildFields data flds with
  | .ok fv => (initFields fv flds).map (fun ws => Val.dict ws)
  | .error e => .error e
termination_by (sizeOf flds, 1, 0)

/-- The field_values loop of dict_to_dataclass (converters.py lines
167-197): for each declared field in order, when `field_name in data`,
fetch `data[field_name]` and convert it per the field's annotation. -/
def buildFields (data : Val) :
    List (String × PyType × Option Val) → Except PyErr (List (String × Val))
  | [] => .ok []
  | (n, t, _) :: rest =>
      match pyContainsVal data n with
      | .error e => .error e
      | .ok false => buildFields data rest
      | .ok true =>
          match pyGetItemVal data n with
          | .error e => .error e
          | .ok value =>
              match convField value t with
              | .error e => .error e
              | .ok w => (buildFields data rest).map (fun ws => (n, w) :: ws)
termination_by flds => (sizeOf flds, 0, 0)

/-- The per-field dispatch of dict_to_dataclass (converters.py lines
170-196): an Optional unwraps and may recurse into a dataclass; a plain
dataclass field recurses (null stays null); everything else goes through
convert_value_to_type with the full declared annotation. -/
def convField (value : Val) (t : PyType) : Except PyErr Val :=
  match t with
  | .union args =>
      if args.length == 2 && args.any isNoneTypeDesc then
        match args with
        | [a, b] =>
            if isNoneTypeDesc a then convFieldOpt value b args
            else convFieldOpt value a args
        | _ => .error .stopIteration
      else convert_value_to_type value (.union args)
  | .dataclass sub =>
      (match value with
       | .none => .ok .none
       | v => dict_to_dataclass v sub)
  | t2 => convert_value_to_type value t2
termination_by (sizeOf t, 2, 0)

/-- The Optional-field branch (converters.py lines 176-184): recurse into
the unwrapped dataclass when the value is not null; otherwise convert
against the full Optional annotation. -/
def convFieldOpt (value : Val) (actual : PyType) (args : List PyType) : Except PyErr Val :=
  match actual with
  | .dataclass sub =>
      (match value with
       | .none => convert_value_to_type .none (.union args)
       | v => dict_to_dataclass v sub)
  | _ => convert_value_to_type value (.union args)
termination_by (sizeOf actual, 3, 0)

end

theorem lookup_setKey_self (d : Dict) (kset : String) (v : Val) :
    lookup (setKey d kset v) kset = some v := by
  induction d with
  | nil => simp [setKey, lookup]
  | cons hd tl ih =>
      obtain ⟨k2, w⟩ := hd
      by_cases h : k2 = kset <;> simp [setKey, lookup, h, ih]

theorem lookup_setKey_ne (d : Dict) (kset kq : String) (v : Val) (h : kq ≠ kset) :
    lookup (setKey d kset v) kq = lookup d kq := by
  induction d with
  | nil =>
      simp only [setKey, lookup]
      rw [if_neg (Ne.symm h)]
  | cons hd tl ih =>
      obtain ⟨k2, w⟩ := hd
      by_cases h2 : k2 = kset
      · subst h2
        rw [setKey, if_pos rfl]
        simp only [lookup]
        rw [if_neg (Ne.symm h), if_neg (Ne.symm h)]
      · rw [setKey, if_neg h2]
        simp only [lookup]
        by_cases h3 : k2 = kq
        · rw [if_pos h3, if_pos h3]
        · rw [if_neg h3, if_neg h3, ih]

theorem containsKey_setKey (d : Dict) (kset kq : String) (v : Val) :
    containsKey (setKey d kset v) kq = (decide (kq = kset) || containsKey d kq) := by
  by_cases h : kq = kset
  · subst h; simp [containsKey, lookup_setKey_self]
  · simp [containsKey, lookup_setKey_ne d kset kq v h, h]

theorem containsKey_cons (k2 : String) (w : Val) (tl : Dict) (kq : String) :
    containsKey ((k2, w) :: tl) kq = (decide (kq = k2) || containsKey tl kq) := by
  by_cases h : k2 = kq
  · subst h; simp [containsKey, lookup]
  · have h2 : ¬kq = k2 := fun hh => h (Eq.symm hh)
    simp [containsKey, lookup, h, h2]

theorem lookup_eq_none_of_not_mem_keys (d : Dict) (k : String)
    (h : k ∉ d.map Prod.fst) : lookup d k = Option.none := by
  induction d with
  | nil => simp [lookup]
  | cons hd tl ih =>
      obtain ⟨k2, w⟩ := hd
      simp only [List.map_cons, List.mem_cons] at h
      push_neg at h
      rw [lookup, if_neg (fun hh => h.1 (Eq.symm hh)), ih h.2]

theorem deep_merge_lookup_none (ov : Dict) (k : String) (hk : lookup ov k = Option.none) :
    ∀ base : Dict, lookup (deep_merge ov base) k = lookup base k := by
  induction ov with
  | nil => intro base; rw [deep_merge]
  | cons hd tl ih =>
      intro base
      obtain ⟨k2, v⟩ := hd
      have hne : k2 ≠ k := by
        intro h; rw [lookup, if_pos h] at hk; exact Option.noConfusion hk
      rw [lookup, if_neg hne] at hk
      rw [deep_merge, ih hk, lookup_setKey_ne _ _ _ _ (Ne.symm hne)]

theorem deep_merge_lookup_some (ov : Dict) (k : String) (v : Val)
    (hnd : NodupKeys ov) (hk : lookup ov k = some v) :
    ∀ base : Dict, lookup (deep_merge ov base) k = some (mergedAt v (lookup base k)) := by
  induction ov with
  | nil => intro base; exact absurd hk (by simp [lookup])
  | cons hd tl ih =>
      intro base
      obtain ⟨k2, w⟩ := hd
      have hnd2 : NodupKeys tl := (List.nodup_cons.mp hnd).2
      by_cases he : k2 = k
      · subst he
        rw [lookup, if_pos rfl] at hk
        injection hk with hk; subst hk
        have hnotin : k2 ∉ tl.map Prod.fst := (List.nodup_cons.mp hnd).1
        have htl : lookup tl k2 = Option.none := lookup_eq_none_of_not_mem_keys tl k2 hnotin
        rw [deep_merge, deep_merge_lookup_none tl k2 htl, lookup_setKey_self]
      · rw [lookup, if_neg he] at hk
        rw [deep_merge, ih hnd2 hk, lookup_setKey_ne _ _ _ _ (Ne.symm he)]

theorem deep_merge_containsKey (ov : Dict) (k : String) :
    ∀ base : Dict,
      containsKey (deep_merge ov base) k = (containsKey base k || containsKey ov k) := by
  induction ov with
  | nil =>
      intro base
      rw [deep_merge]
      show containsKey base k = (containsKey base k || containsKey [] k)
      simp [containsKey, lookup]
  | cons hd tl ih =>
      intro base
      obtain ⟨k2, w⟩ := hd
      rw [deep_merge, ih, containsKey_setKey, containsKey_cons]
      cases hq : decide (k = k2) <;>
        cases hb : containsKey base k <;>
        cases ht : containsKey tl k <;> rfl

theorem mergedAt_non_dict (v : Val) (bv : Option Val) (h : ∀ d2, v ≠ Val.dict d2) :
    mergedAt v bv = v := by
  unfold mergedAt
  split
  · rename_i m b
    exact absurd rfl (h m)
  · rfl

theorem mergeGuard_dict (x : Dict) (t : Dict) :
    mergeGuard (.dict x) t = .ok (deep_merge x t) := by
  cases x with
  | nil => rfl
  | cons hd tl => rfl

theorem foldLayers_dicts (dd b m u : Dict) :
    foldLayers dd (.dict b) (.dict m) (.dict u) =
      .ok (deep_merge u (deep_merge m (deep_merge b dd))) := by
  simp only [foldLayers, mergeGuard_dict]
  rfl

/-- C4: for every pair of trees, `deep_merge override base` contains every
key of `base`; for each key of `override`, the result holds the recursive
merge when both sides hold a mapping at that key and the override value
otherwise — in particular a non-mapping override value such as a sequence
fully replaces the base value, and the concrete sequence example replaces
rather than concatenates. Totality on any two mappings is by construction:
`deep_merge` is a total Lean function, as the Python merge raises nothing
on two dicts. -/
theorem claim_c4 :
    (∀ (ov base : Dict) (k : String),
        containsKey base k = true → containsKey (deep_merge ov base) k = true)
    ∧ (∀ (ov base : Dict) (k : String) (v : Val), NodupKeys ov →
        lookup ov k = some v →
        lookup (deep_merge ov base) k = some (mergedAt v (lookup base k)))
    ∧ (∀ (ov base : Dict) (k : String) (v : Val), NodupKeys ov →
        lookup ov k = some v → (∀ m, v ≠ Val.dict m) →
        lookup (deep_merge ov base) k = some v)
    ∧ deep_merge [("items", Val.list [Val.int 3])] [("items", Val.list [Val.int 1, Val.int 2])]
        = [("items", Val.list [Val.int 3])] := by
  refine ⟨?_, ?_, ?_, rfl⟩
  · intro ov base k h
    rw [deep_merge_containsKey, h]
    rfl
  · intro ov base k v hnd hk
    exact deep_merge_lookup_some ov k v hnd hk base
  · intro ov base k v hnd hk hv
    rw [deep_merge_lookup_some ov k v hnd hk base, mergedAt_non_dict v _ hv]

theorem claim_c4_witness :
    containsKey (deep_merge [("a", Val.int 1)] [("b", Val.int 2)]) "b" = true
    ∧ lookup (deep_merge [("a", Val.int 1)] [("b", Val.int 2), ("a", Val.int 0)]) "a"
        = some (mergedAt (Val.int 1) (lookup [("b", Val.int 2), ("a", Val.int 0)] "a"))
    ∧ lookup (deep_merge [("a", Val.list [Val.int 3])] [("a", Val.list [Val.int 1])]) "a"
        = some (Val.list [Val.int 3]) :=
  ⟨claim_c4.1 [("a", Val.int 1)] [("b", Val.int 2)] "b" rfl,
   claim_c4.2.1 [("a", Val.int 1)] [("b", Val.int 2), ("a", Val.int 0)] "a" (Val.int 1)
     (by simp [NodupKeys]) rfl,
   claim_c4.2.2.1 [("a", Val.list [Val.int 3])] [("a", Val.list [Val.int 1])] "a"
     (Val.list [Val.int 3]) (by simp [NodupKeys]) rfl
     (fun m h => Val.noConfusion h)⟩

/-- C3: the engine's fold respects the fixed priority order user source >
mode-default > base-default > schema dataclass default: a field the user
tree holds with a non-mapping value resolves to the user value; otherwise
the mode-default value wins, then the base-default value, then the
dataclass default, for every input combination. CLI overrides sit above all
of these but are applied by the external tyro pass (spec 4.4 step 9),
outside this fold. The closed conjunct runs the pipeline end to end: a
field set in the dataclass defaults, the base default file and the user
file resolves to the user file's value. -/
theorem claim_c3 :
    (∀ (dd b m u t : Dict) (f : String) (v : Val), NodupKeys u →
        foldLayers dd (.dict b) (.dict m) (.dict u) = .ok t →
        lookup u f = some v → (∀ d2, v ≠ Val.dict d2) → lookup t f = some v)
    ∧ (∀ (dd b m u t : Dict) (f : String) (v : Val), NodupKeys m →
        foldLayers dd (.dict b) (.dict m) (.dict u) = .ok t →
        lookup u f = Option.none → lookup m f = some v → (∀ d2, v ≠ Val.dict d2) →
        lookup t f = some v)
    ∧ (∀ (dd b m u t : Dict) (f : String) (v : Val), NodupKeys b →
        foldLayers dd (.dict b) (.dict m) (.dict u) = .ok t →
        lookup u f = Option.none → lookup m f = Option.none → lookup b f = some v →
        (∀ d2, v ≠ Val.dict d2) → lookup t f = some v)
    ∧ (∀ (dd b m u t : Dict) (f : String),
        foldLayers dd (.dict b) (.dict m) (.dict u) = .ok t →
        lookup u f = Option.none → lookup m f = Option.none → lookup b f = Option.none →
        lookup t f = lookup dd f)
    ∧ parse_args_tree
        ⟨"configs", Option.none, "config", [("value", Val.int 1), ("name", Val.str "schema")]⟩
        (fun p => if p = "configs/default.yaml"
                  then some (.ok (Val.dict [("value", Val.int 2), ("name", Val.str "base")]))
                  else if p = "u.yaml" then some (.ok (Val.dict [("value", Val.int 3)]))
                  else Option.none)
        ["--config", "u.yaml"]
      = .ok ⟨[("value", Val.int 3), ("name", Val.str "base")], Val.none, some "u.yaml"⟩ := by
  refine ⟨?_, ?_, ?_, ?_, rfl⟩
  · intro dd b m u t f v hnd hok hu hv
    rw [foldLayers_dicts] at hok
    injection hok with hok
    subst hok
    rw [deep_merge_lookup_some u f v hnd hu, mergedAt_non_dict v _ hv]
  · intro dd b m u t f v hnd hok hu hm hv
    rw [foldLayers_dicts] at hok
    injection hok with hok
    subst hok
    rw [deep_merge_lookup_none u f hu, deep_merge_lookup_some m f v hnd hm,
      mergedAt_non_dict v _ hv]
  · intro dd b m u t f v hnd hok hu hm hb hv
    rw [foldLayers_dicts] at hok
    injection hok with hok
    subst hok
    rw [deep_merge_lookup_none u f hu, deep_merge_lookup_none m f hm,
      deep_merge_lookup_some b f v hnd hb, mergedAt_non_dict v _ hv]
  · intro dd b m u t f hok hu hm hb
    rw [foldLayers_dicts] at hok
    injection hok with hok
    subst hok
    rw [deep_merge_lookup_none u f hu, deep_merge_lookup_none m f hm,
      deep_merge_lookup_none b f hb]

theorem claim_c3_witness :
    lookup [("x", Val.int 9)] "x" = some (Val.int 9) :=
  claim_c3.1 [("x", Val.int 0)] [] [] [("x", Val.int 9)] [("x", Val.int 9)] "x" (Val.int 9)
    (by simp [NodupKeys]) rfl rfl (fun d2 h => Val.noConfusion h)

/-- C1: the claim FAILS on the code. `ConfigManager._load_user_yaml`
(manager.py line 221) guards `load_yaml_config` with an existence check and
silently substitutes an empty tree for a missing user-specified file, so
`parse_args` on a nonexistent `--config` path completes without any
FileNotFoundError and resolves from the remaining layers — evaluated here
on the failing input of
tests/test_file_error.py::test_error_on_nonexistent_config_file, which the
code therefore fails. -/
theorem claim_c1 :
    load_user_yaml (fun _ => Option.none) (some "/tmp/does_not_exist.yaml")
      = .ok (.dict [])
    ∧ parse_args_tree
        ⟨"configs", Option.none, "config",
         [("config", Val.none), ("value", Val.int 42), ("name", Val.str "default")]⟩
        (fun _ => Option.none) ["--config", "/tmp/does_not_exist.yaml"]
      = .ok ⟨[("config", Val.none), ("value", Val.int 42), ("name", Val.str "default")],
             Val.none, some "/tmp/does_not_exist.yaml"⟩ :=
  ⟨rfl, rfl⟩

/-- C2: the claim FAILS on the code. The argparse pre-scan of parse_args
stores only the LAST `--config` occurrence (manager.py line 95, a plain
store action), so earlier user files are never loaded or folded: on the
failing input of tests/test_file_error.py::test_multi_config_basic, the
field set only in the first file keeps its dataclass default (42) instead
of the first file's value (100), so the tests fail against this code. -/
theorem claim_c2 :
    preScanLast ["--config"] ["--config", "config1.yaml", "--config", "config2.yaml"]
      = some "config2.yaml"
    ∧ parse_args_tree
        ⟨"configs", Option.none, "config",
         [("config", Val.none), ("value", Val.int 42), ("name", Val.str "default")]⟩
        (fun p => if p = "config1.yaml" then some (.ok (Val.dict [("value", Val.int 100)]))
                  else if p = "config2.yaml" then
                    some (.ok (Val.dict [("name", Val.str "from_config2")]))
                  else Option.none)
        ["--config", "config1.yaml", "--config", "config2.yaml"]
      = .ok ⟨[("config", Val.none), ("value", Val.int 42), ("name", Val.str "from_config2")],
             Val.none, some "config2.yaml"⟩ :=
  ⟨rfl, rfl⟩

/-- C5: the authoritative mode is the first truthy value among the
pre-scanned CLI mode flag, the mode field of the user tree, the mode field
of the base default tree, and the dataclass default of the field; a falsy
authoritative mode means the mode-default file is not probed and no error
is raised; a resolved mode selects default_{mode}.yaml, which the fold
merges above the base default and below the user tree. The closed
conjuncts run the mode-circularity scenario end to end: without a CLI
override the user file's mode "advanced" wins and value becomes 200; with
a CLI mode "special" the CLI value selects default_special.yaml
(value 300). -/
theorem claim_c5 :
    (∀ (M : Manager) (mf s : String) (u d : Val), M.mode_field = some mf →
        s ≠ "" → authMode M (some s) u d = .ok (.str s))
    ∧ (∀ (M : Manager) (mf : String) (cli : Option String) (du : Dict) (d v : Val),
        M.mode_field = some mf → (cliModeVal cli).truthy = false →
        lookup du mf = some v → authMode M cli (.dict du) d = .ok v)
    ∧ (∀ (M : Manager) (mf : String) (cli : Option String) (du dd2 : Dict) (v : Val),
        M.mode_field = some mf → (cliModeVal cli).truthy = false →
        lookup du mf = Option.none → lookup dd2 mf = some v →
        authMode M cli (.dict du) (.dict dd2) = .ok v)
    ∧ (∀ (M : Manager) (mf : String) (cli : Option String) (du dd2 : Dict),
        M.mode_field = some mf → (cliModeVal cli).truthy = false →
        lookup du mf = Option.none → lookup dd2 mf = Option.none →
        authMode M cli (.dict du) (.dict dd2)
          = .ok ((lookup M.dataclassDefaults mf).getD .none))
    ∧ (∀ (M : Manager) (fs : FS) (am : Val), am.truthy = false →
        modeLayer M fs am = .ok (.dict []))
    ∧ parse_args_tree c5Manager c5FS ["--config", "user.yaml"]
        = .ok ⟨[("config", Val.none), ("mode", Val.str "advanced"), ("value", Val.int 200)],
               Val.str "advanced", some "user.yaml"⟩
    ∧ parse_args_tree c5Manager c5FS ["--config", "user.yaml", "--mode", "special"]
        = .ok ⟨[("config", Val.none), ("mode", Val.str "advanced"), ("value", Val.int 300)],
               Val.str "special", some "user.yaml"⟩ := by
  refine ⟨?_, ?_, ?_, ?_, ?_, rfl, rfl⟩
  · intro M mf s u d hmf hs
    have hb : (s != "") = true := by simpa using hs
    simp [authMode, cliModeVal, hmf, Val.truthy, hb]
    rfl
  · intro M mf cli du d v hmf hcli hdu
    cases du with
    | nil => exact absurd hdu (by simp [lookup])
    | cons hd tl =>
        simp only [authMode, hmf, hcli, Bool.false_eq_true, if_false]
        simp [pyContainsVal, pyGetItemVal, containsKey, hdu, Val.truthy]
        rfl
  · intro M mf cli du dd2 v hmf hcli hdu hdd
    cases dd2 with
    | nil => exact absurd hdd (by simp [lookup])
    | cons hd tl =>
        simp only [authMode, hmf, hcli, Bool.false_eq_true, if_false]
        by_cases hu : du.isEmpty = true
        · simp [pyContainsVal, pyGetItemVal, containsKey, hdu, hdd, Val.truthy, hu]
          try rfl
        · simp [pyContainsVal, pyGetItemVal, containsKey, hdu, hdd, Val.truthy, hu]
          try rfl
  · intro M mf cli du dd2 hmf hcli hdu hdd
    simp only [authMode, hmf, hcli, Bool.false_eq_true, if_false]
    by_cases hu : du.isEmpty = true
    · by_cases hd : dd2.isEmpty = true
      · simp [pyContainsVal, containsKey, hdu, hdd, hu, hd, Val.truthy]
        try rfl
      · simp [pyContainsVal, containsKey, hdu, hdd, hu, hd, Val.truthy]
        try rfl
    · by_cases hd : dd2.isEmpty = true
      · simp [pyContainsVal, containsKey, hdu, hdd, hu, hd, Val.truthy]
        try rfl
      · simp [pyContainsVal, containsKey, hdu, hdd, hu, hd, Val.truthy]
        try rfl
  · intro M fs am ham
    cases hmf : M.mode_field with
    | none => simp [modeLayer, hmf]; try rfl
    | some mf => simp [modeLayer, hmf, ham]; try rfl

theorem claim_c5_witness :
    authMode c5Manager (some "special") (Val.dict [("mode", Val.str "advanced")])
        (Val.dict [("mode", Val.str "basic")]) = .ok (.str "special")
    ∧ authMode c5Manager Option.none (Val.dict [("mode", Val.str "advanced")])
        (Val.dict [("mode", Val.str "basic")]) = .ok (.str "advanced")
    ∧ authMode c5Manager Option.none (Val.dict []) (Val.dict [("mode", Val.str "basic")])
        = .ok (.str "basic")
    ∧ authMode c5Manager Option.none (Val.dict []) (Val.dict [])
        = .ok ((lookup c5Manager.dataclassDefaults "mode").getD .none)
    ∧ modeLayer c5Manager c5FS Val.none = .ok (.dict []) :=
  ⟨claim_c5.1 c5Manager "mode" "special" _ _ rfl (by simp),
   claim_c5.2.1 c5Manager "mode" Option.none _ _ _ rfl rfl rfl,
   claim_c5.2.2.1 c5Manager "mode" Option.none [] _ _ rfl rfl rfl rfl,
   claim_c5.2.2.2.1 c5Manager "mode" Option.none [] [] rfl rfl rfl rfl,
   claim_c5.2.2.2.2.1 c5Manager c5FS Val.none rfl⟩

/-- C10: loading an existing source file whose content parses to null
yields an empty mapping, not null (the `or` fallback on loaders.py line
31), and an empty mapping behaves exactly like an absent optional source in
every subsequent merge: the guarded merge leaves the accumulated tree
unchanged, which is also what an absent optional default file loads as. -/
theorem claim_c10 :
    (∀ (fs : FS) (p : String), fs p = some (.ok Val.none) →
        load_yaml_config fs p = .ok (.dict []))
    ∧ (∀ t : Dict, mergeGuard (.dict []) t = .ok t)
    ∧ (∀ (M : Manager) (fs : FS), (fs (defaultYamlPath M)).isNone = true →
        load_default_yaml M fs = .ok (.dict [])) := by
  refine ⟨?_, fun t => rfl, ?_⟩
  · intro fs p h
    simp [load_yaml_config, h, Val.truthy]
  · intro M fs h
    simp [load_default_yaml, h]

theorem claim_c10_witness :
    load_yaml_config (fun _ => some (.ok Val.none)) "empty.yaml" = .ok (.dict [])
    ∧ mergeGuard (.dict []) [("a", Val.int 1)] = .ok [("a", Val.int 1)]
    ∧ load_default_yaml ⟨"configs", Option.none, "config", []⟩ (fun _ => Option.none)
        = .ok (.dict []) :=
  ⟨claim_c10.1 (fun _ => some (.ok Val.none)) "empty.yaml" rfl,
   claim_c10.2.1 [("a", Val.int 1)],
   claim_c10.2.2 ⟨"configs", Option.none, "config", []⟩ (fun _ => Option.none) rfl⟩

theorem pyIntOf_err (v : Val) (e : PyErr) (h : pyIntOf v = .error e) :
    isCaughtErr e = true := by
  cases v <;> simp only [pyIntOf] at h <;>
    first
      | exact Except.noConfusion h
      | (injection h with h2; subst h2; rfl)

theorem pyFloatOf_err (v : Val) (e : PyErr) (h : pyFloatOf v = .error e) :
    isCaughtErr e = true := by
  cases v with
  | str s =>
      simp only [pyFloatOf] at h
      cases hp : parseFloat? s with
      | some q => rw [hp] at h; exact Except.noConfusion h
      | none => rw [hp] at h; injection h with h2; subst h2; rfl
  | none => simp only [pyFloatOf] at h; injection h with h2; subst h2; rfl
  | bool b => simp only [pyFloatOf] at h; exact Except.noConfusion h
  | int n => simp only [pyFloatOf] at h; exact Except.noConfusion h
  | float q => simp only [pyFloatOf] at h; exact Except.noConfusion h
  | path p => simp only [pyFloatOf] at h; injection h with h2; subst h2; rfl
  | list l => simp only [pyFloatOf] at h; injection h with h2; subst h2; rfl
  | tup l => simp only [pyFloatOf] at h; injection h with h2; subst h2; rfl
  | dict d => simp only [pyFloatOf] at h; injection h with h2; subst h2; rfl

/-- Every exception that escapes convert_value_to_type is a ValueError or
a TypeError: exactly the kinds the Union loop catches, so no alternative
failure can abort the loop early. -/
theorem convert_errors_caught :
    ∀ (v : Val) (t : PyType) (e : PyErr),
      convert_value_to_type v t = .error e → isCaughtErr e = true := by
  have H := @convert_value_to_type.induct
    (fun v t => ∀ e, convert_value_to_type v t = .error e → isCaughtErr e = true)
    (fun v rem all => ∀ e, tryUnionArms v rem all = .error e → isCaughtErr e = true)
    (fun v t => ∀ e, convertBasic v t = .error e → isCaughtErr e = true)
    (fun s t => ∀ e, listFallback s t = .error e → isCaughtErr e = true)
    (fun l t => ∀ e, convertEach l t = .error e → isCaughtErr e = true)
  intro v t
  apply H <;> clear H v t
  case case1 =>
    intro t e h
    simp [convert_value_to_type] at h
  case case2 =>
    intro v hv a b hA hcond ih e h
    simp only [convert_value_to_type] at h
    rw [if_pos hcond, if_pos hA] at h
    exact ih e h
  case case3 =>
    intro v hv a b hA hcond ih e h
    simp only [convert_value_to_type] at h
    rw [if_pos hcond, if_neg hA] at h
    exact ih e h
  case case4 =>
    intro v hv args hcond hshape e h
    exfalso
    cases args with
    | nil => simp at hcond
    | cons a rest =>
        cases rest with
        | nil => simp at hcond
        | cons b rest2 =>
            cases rest2 with
            | nil => exact hshape a b rfl
            | cons c rest3 => simp [List.length] at hcond
  case case5 =>
    intro v hv args hcond ih e h
    have hcond2 : (args.length == 2 && args.any isNoneTypeDesc) = false := by
      revert hcond
      cases (args.length == 2 && args.any isNoneTypeDesc) <;> simp
    rw [convert_value_to_type.eq_def] at h
    cases v
    case none => exact absurd rfl hv
    all_goals simp only [hcond2, Bool.false_eq_true, if_false] at h
    all_goals exact ih e h
  case case6 =>
    intro v hv t hnu ih e h
    simp only [convert_value_to_type] at h
    exact ih e h
  case case7 =>
    intro v all e h
    simp only [tryUnionArms] at h
    injection h with h2; subst h2; rfl
  case case8 =>
    intro v all t rest w hconv ih1 e h
    simp only [tryUnionArms, hconv] at h
    exact Except.noConfusion h
  case case9 =>
    intro v all t rest a hconv ih1 ihrest e h
    simp only [tryUnionArms, hconv] at h
    exact ihrest e h
  case case10 =>
    intro v all t rest a hconv ih1 ihrest e h
    simp only [tryUnionArms, hconv] at h
    exact ihrest e h
  case case11 =>
    intro v all t rest e2 hxv hxt hconv ih1 e h
    have hc := ih1 e2 hconv
    cases e2 with
    | valueError a => exact absurd rfl (hxv a)
    | typeError a => exact absurd rfl (hxt a)
    | fileNotFound a => simp [isCaughtErr] at hc
    | yamlError a => simp [isCaughtErr] at hc
    | syntaxError a => simp [isCaughtErr] at hc
    | keyError a => simp [isCaughtErr] at hc
    | stopIteration => simp [isCaughtErr] at hc
  case case12 =>
    intro s e h
    simp [convertBasic] at h
  case case13 =>
    intro v hns e h
    simp [convertBasic] at h
  case case14 =>
    intro s e h
    simp only [convertBasic] at h
    cases hf : pyFloatOf (.str s) with
    | ok q => rw [hf] at h; exact Except.noConfusion h
    | error e2 =>
        rw [hf] at h
        injection h with h2; subst h2
        exact pyFloatOf_err _ _ hf
  case case15 =>
    intro v hns e h
    simp only [convertBasic] at h
    cases hf : pyIntOf v with
    | ok n => rw [hf] at h; exact Except.noConfusion h
    | error e2 =>
        rw [hf] at h
        injection h with h2; subst h2
        exact pyIntOf_err _ _ hf
  case case16 =>
    intro v e h
    simp only [convertBasic] at h
    cases hf : pyFloatOf v with
    | ok q => rw [hf] at h; exact Except.noConfusion h
    | error e2 =>
        rw [hf] at h
        injection h with h2; subst h2
        exact pyFloatOf_err _ _ hf
  case case17 =>
    intro v e h
    simp [convertBasic] at h
  case case18 =>
    intro s e h
    simp [convertBasic] at h
  case case19 =>
    intro p e h
    simp [convertBasic] at h
  case case20 =>
    intro v hns hnp e h
    simp only [convertBasic] at h
    injection h with h2; subst h2; rfl
  case case21 =>
    intro item s r hmatch ih5 e h
    simp only [convertBasic] at h
    rw [hmatch] at h
    exact Except.noConfusion h
  case case22 =>
    intro item s a hmatch ih5 ih4 e h
    simp only [convertBasic] at h
    rw [hmatch] at h
    exact ih4 e h
  case case23 =>
    intro item s a hmatch ih5 ih4 e h
    simp only [convertBasic] at h
    rw [hmatch] at h
    exact ih4 e h
  case case24 =>
    intro item s e2 hxv hxs hmatch ih5 e h
    simp only [convertBasic] at h
    rw [hmatch] at h
    cases e2 with
    | valueError a => exact absurd rfl (hxv a)
    | syntaxError a => exact absurd rfl (hxs a)
    | fileNotFound a =>
        injection h with h2; subst h2
        cases hpl : pyLiteralEval s with
        | none => rw [hpl] at hmatch; injection hmatch with h3; exact PyErr.noConfusion h3
        | some w =>
            rw [hpl] at hmatch
            cases w with
            | list l => exact ih5 l _ hmatch
            | none => injection hmatch with h3; exact PyErr.noConfusion h3
            | bool b => injection hmatch with h3; exact PyErr.noConfusion h3
            | int n => injection hmatch with h3; exact PyErr.noConfusion h3
            | float q => injection hmatch with h3; exact PyErr.noConfusion h3
            | str s2 => injection hmatch with h3; exact PyErr.noConfusion h3
            | path p => injection hmatch with h3; exact PyErr.noConfusion h3
            | tup l => injection hmatch with h3; exact PyErr.noConfusion h3
            | dict d => injection hmatch with h3; exact PyErr.noConfusion h3
    | yamlError a =>
        injection h with h2; subst h2
        cases hpl : pyLiteralEval s with
        | none => rw [hpl] at hmatch; injection hmatch with h3; exact PyErr.noConfusion h3
        | some w =>
            rw [hpl] at hmatch
            cases w with
            | list l => exact ih5 l _ hmatch
            | none => injection hmatch with h3; exact PyErr.noConfusion h3
            | bool b => injection hmatch with h3; exact PyErr.noConfusion h3
            | int n => injection hmatch with h3; exact PyErr.noConfusion h3
            | float q => injection hmatch with h3; exact PyErr.noConfusion h3
            | str s2 => injection hmatch with h3; exact PyErr.noConfusion h3
            | path p => injection hmatch with h3; exact PyErr.noConfusion h3
            | tup l => injection hmatch with h3; exact PyErr.noConfusion h3
            | dict d => injection hmatch with h3; exact PyErr.noConfusion h3
    | keyError a =>
        injection h with h2; subst h2
        cases hpl : pyLiteralEval s with
        | none => rw [hpl] at hmatch; injection hmatch with h3; exact PyErr.noConfusion h3
        | some w =>
            rw [hpl] at hmatch
            cases w with
            | list l => exact ih5 l _ hmatch
            | none => injection hmatch with h3; exact PyErr.noConfusion h3
            | bool b => injection hmatch with h3; exact PyErr.noConfusion h3
            | int n => injection hmatch with h3; exact PyErr.noConfusion h3
            | float q => injection hmatch with h3; exact PyErr.noConfusion h3
            | str s2 => injection hmatch with h3; exact PyErr.noConfusion h3
            | path p => injection hmatch with h3; exact PyErr.noConfusion h3
            | tup l => injection hmatch with h3; exact PyErr.noConfusion h3
            | dict d => injection hmatch with h3; exact PyErr.noConfusion h3
    | typeError a =>
        injection h with h2; subst h2; rfl
    | stopIteration =>
        injection h with h2; subst h2
        cases hpl : pyLiteralEval s with
        | none => rw [hpl] at hmatch; injection hmatch with h3; exact PyErr.noConfusion h3
        | some w =>
            rw [hpl] at hmatch
            cases w with
            | list l => exact ih5 l _ hmatch
            | none => injection hmatch with h3; exact PyErr.noConfusion h3
            | bool b => injection hmatch with h3; exact PyErr.noConfusion h3
            | int n => injection hmatch with h3; exact PyErr.noConfusion h3
            | float q => injection hmatch with h3; exact PyErr.noConfusion h3
            | str s2 => injection hmatch with h3; exact PyErr.noConfusion h3
            | path p => injection hmatch with h3; exact PyErr.noConfusion h3
            | tup l => injection hmatch with h3; exact PyErr.noConfusion h3
            | dict d => injection hmatch with h3; exact PyErr.noConfusion h3
  case case25 =>
    intro item l ih5 e h
    simp only [convertBasic] at h
    cases hc : convertEach l item with
    | ok r => rw [hc] at h; exact Except.noConfusion h
    | error e2 =>
        rw [hc] at h
        injection h with h2; subst h2
        exact ih5 e2 hc
  case case26 =>
    intro v item hns hnl e h
    simp only [convertBasic] at h
    injection h with h2; subst h2; rfl
  case case27 =>
    intro v t h1 h2 h3 h4 h5 h6 e h
    simp only [convertBasic] at h
    exact Except.noConfusion h
  case case28 =>
    intro s item r hconv ih5 e h
    simp only [listFallback, hconv] at h
    exact Except.noConfusion h
  case case29 =>
    intro s item e2 hconv ih5 e h
    simp only [listFallback, hconv] at h
    injection h with h2; subst h2; rfl
  case case30 =>
    intro t e h
    simp only [convertEach] at h
    exact Except.noConfusion h
  case case31 =>
    intro t x xs w hconv ih1 ih5 e h
    simp only [convertEach, hconv] at h
    cases hc : convertEach xs t with
    | ok ws => rw [hc] at h; exact Except.noConfusion h
    | error e2 =>
        rw [hc] at h
        injection h with h2; subst h2
        exact ih5 e2 hc
  case case32 =>
    intro t x xs e2 hconv ih1 e h
    simp only [convertEach, hconv] at h
    injection h with h2; subst h2
    exact ih1 e2 hconv

theorem convert_union_eq (v : Val) (ts : List PyType) (hv : v ≠ .none)
    (hno : (ts.length == 2 && ts.any isNoneTypeDesc) = false) :
    convert_value_to_type v (.union ts) = tryUnionArms v ts ts := by
  rw [convert_value_to_type.eq_def]
  cases v
  case none => exact absurd rfl hv
  all_goals simp only [hno, Bool.false_eq_true, if_false]

theorem tryUnionArms_ok_iff (v : Val) :
    ∀ (rem : List PyType) (all : List PyType) (w : Val),
      tryUnionArms v rem all = .ok w ↔
        ∃ pre t post, rem = pre ++ t :: post
          ∧ (∀ t2 ∈ pre, ∃ e, convert_value_to_type v t2 = .error e)
          ∧ convert_value_to_type v t = .ok w := by
  intro rem
  induction rem with
  | nil =>
      intro all w
      constructor
      · intro h
        simp only [tryUnionArms] at h
        exact Except.noConfusion h
      · rintro ⟨pre, t, post, hsplit, -, -⟩
        cases pre <;> simp at hsplit
  | cons t0 r ih =>
      intro all w
      cases hc : convert_value_to_type v t0 with
      | ok w0 =>
          simp only [tryUnionArms, hc]
          constructor
          · intro h
            injection h with h
            exact ⟨[], t0, r, rfl, by simp, by rw [hc, h]⟩
          · rintro ⟨pre, t, post, hsplit, hpre, ht⟩
            cases pre with
            | nil =>
                simp only [List.nil_append, List.cons.injEq] at hsplit
                obtain ⟨h1, -⟩ := hsplit
                subst h1
                rw [hc] at ht
                injection ht with ht
                rw [ht]
            | cons p ps =>
                simp only [List.cons_append, List.cons.injEq] at hsplit
                obtain ⟨h1, -⟩ := hsplit
                subst h1
                obtain ⟨e, he⟩ := hpre t0 (List.mem_cons_self t0 ps)
                rw [hc] at he
                exact Except.noConfusion he
      | error e0 =>
          have hcc := convert_errors_caught v t0 e0 hc
          cases e0 with
          | fileNotFound a => simp [isCaughtErr] at hcc
          | yamlError a => simp [isCaughtErr] at hcc
          | syntaxError a => simp [isCaughtErr] at hcc
          | keyError a => simp [isCaughtErr] at hcc
          | stopIteration => simp [isCaughtErr] at hcc
          | valueError a =>
              simp only [tryUnionArms, hc]
              rw [ih all w]
              constructor
              · rintro ⟨pre, t, post, hsplit, hpre, ht⟩
                refine ⟨t0 :: pre, t, post, by rw [hsplit, List.cons_append], ?_, ht⟩
                intro t2 ht2
                rcases List.mem_cons.mp ht2 with h2 | h2
                · subst h2; exact ⟨_, hc⟩
                · exact hpre t2 h2
              · rintro ⟨pre, t, post, hsplit, hpre, ht⟩
                cases pre with
                | nil =>
                    simp only [List.nil_append, List.cons.injEq] at hsplit
                    obtain ⟨h1, -⟩ := hsplit
                    subst h1
                    rw [hc] at ht
                    exact Except.noConfusion ht
                | cons p ps =>
                    simp only [List.cons_append, List.cons.injEq] at hsplit
                    obtain ⟨h1, h2⟩ := hsplit
                    subst h1
                    exact ⟨ps, t, post, h2, fun t2 ht2 => hpre t2 (List.mem_cons_of_mem _ ht2), ht⟩
          | typeError a =>
              simp only [tryUnionArms, hc]
              rw [ih all w]
              constructor
              · rintro ⟨pre, t, post, hsplit, hpre, ht⟩
                refine ⟨t0 :: pre, t, post, by rw [hsplit, List.cons_append], ?_, ht⟩
                intro t2 ht2
                rcases List.mem_cons.mp ht2 with h2 | h2
                · subst h2; exact ⟨_, hc⟩
                · exact hpre t2 h2
              · rintro ⟨pre, t, post, hsplit, hpre, ht⟩
                cases pre with
                | nil =>
                    simp only [List.nil_append, List.cons.injEq] at hsplit
                    obtain ⟨h1, -⟩ := hsplit
                    subst h1
                    rw [hc] at ht
                    exact Except.noConfusion ht
                | cons p ps =>
                    simp only [List.cons_append, List.cons.injEq] at hsplit
                    obtain ⟨h1, h2⟩ := hsplit
                    subst h1
                    exact ⟨ps, t, post, h2, fun t2 ht2 => hpre t2 (List.mem_cons_of_mem _ ht2), ht⟩

theorem tryUnionArms_allfail (v : Val) :
    ∀ (rem : List PyType) (all : List PyType),
      (∀ t2 ∈ rem, ∃ e, convert_value_to_type v t2 = .error e) →
      tryUnionArms v rem all = .error (.valueError (unionErrMsg v all)) := by
  intro rem
  induction rem with
  | nil => intro all _; simp only [tryUnionArms]
  | cons t0 r ih =>
      intro all h
      obtain ⟨e0, hc⟩ := h t0 (List.mem_cons_self t0 r)
      have hcc := convert_errors_caught v t0 e0 hc
      cases e0 with
      | fileNotFound a => simp [isCaughtErr] at hcc
      | yamlError a => simp [isCaughtErr] at hcc
      | syntaxError a => simp [isCaughtErr] at hcc
      | keyError a => simp [isCaughtErr] at hcc
      | stopIteration => simp [isCaughtErr] at hcc
      | valueError a =>
          simp only [tryUnionArms, hc]
          exact ih all (fun t2 ht2 => h t2 (List.mem_cons_of_mem _ ht2))
      | typeError a =>
          simp only [tryUnionArms, hc]
          exact ih all (fun t2 ht2 => h t2 (List.mem_cons_of_mem _ ht2))

/-- C6: for a non-optional Union and a non-null value, coercion succeeds
exactly when some alternative succeeds, returning the first success in
declared order (every earlier alternative having failed); when every
alternative fails, it fails with a ValueError whose message names all
attempted types, and returns no value. Every exception escaping the
coercion of an alternative is a ValueError or TypeError, the kinds the
loop catches, so no failure aborts the loop early. -/
theorem claim_c6 (v : Val) (ts : List PyType) (hv : v ≠ .none)
    (hno : (ts.length == 2 && ts.any isNoneTypeDesc) = false) :
    (∀ t2 e, convert_value_to_type v t2 = .error e → isCaughtErr e = true)
    ∧ (∀ w, convert_value_to_type v (.union ts) = .ok w ↔
        ∃ pre t post, ts = pre ++ t :: post
          ∧ (∀ t2 ∈ pre, ∃ e, convert_value_to_type v t2 = .error e)
          ∧ convert_value_to_type v t = .ok w)
    ∧ ((∀ t2 ∈ ts, ∃ e, convert_value_to_type v t2 = .error e) →
        convert_value_to_type v (.union ts) = .error (.valueError (unionErrMsg v ts))) := by
  refine ⟨fun t2 e he => convert_errors_caught v t2 e he, ?_, ?_⟩
  · intro w
    rw [convert_union_eq v ts hv hno]
    exact tryUnionArms_ok_iff v ts ts w
  · intro hall
    rw [convert_union_eq v ts hv hno]
    exact tryUnionArms_allfail v ts ts hall

theorem claim_c6_witness :
    convert_value_to_type (.str "x") (.union [PyType.int, PyType.str]) = .ok (.str "x")
    ∧ convert_value_to_type (.dict []) (.union [PyType.int])
        = .error (.valueError (unionErrMsg (.dict []) [PyType.int])) := by
  constructor
  · refine ((claim_c6 (.str "x") [PyType.int, PyType.str]
      (fun h => Val.noConfusion h) rfl).2.1 (.str "x")).mpr
      ⟨[PyType.int], PyType.str, [], rfl, ?_, ?_⟩
    · intro t2 ht2
      have h2 : t2 = PyType.int := by simpa using ht2
      subst h2
      refine ⟨.valueError ("could not convert string to float: " ++ sqml ++ "x" ++ sqml), ?_⟩
      simp only [convert_value_to_type, convertBasic]
      rfl
    · simp only [convert_value_to_type, convertBasic]
      rfl
  · refine (claim_c6 (.dict []) [PyType.int] (fun h => Val.noConfusion h) rfl).2.2 ?_
    intro t2 ht2
    have h2 : t2 = PyType.int := by simpa using ht2
    subst h2
    refine ⟨.typeError ("int() argument must be a number, not dict"), ?_⟩
    simp only [convert_value_to_type, convertBasic]
    rfl

/-- C7: textual List[T] coercion first attempts a Python literal parse of
the string; a parse that yields a list is coerced elementwise, while a
parse failure or a non-list parse result falls back to splitting the
string on commas, stripping whitespace around each token and coercing each
token against T; both the bracketed and the bare comma form of 1,2,3 yield
the integer list, and an input that is neither textual nor a list fails
with a ValueError. -/
theorem claim_c7 :
    (∀ (s : String) (l : List Val) (T : PyType) (r : List Val),
        pyLiteralEval s = some (.list l) → convertEach l T = .ok r →
        convert_value_to_type (.str s) (.list T) = .ok (.list r))
    ∧ (∀ (s : String) (T : PyType), pyLiteralEval s = Option.none →
        convert_value_to_type (.str s) (.list T) = listFallback s T)
    ∧ (∀ (s : String) (T : PyType) (w : Val), pyLiteralEval s = some w →
        (∀ l, w ≠ .list l) → convert_value_to_type (.str s) (.list T) = listFallback s T)
    ∧ convert_value_to_type (.str "[1, 2, 3]") (.list .int)
        = .ok (.list [.int 1, .int 2, .int 3])
    ∧ convert_value_to_type (.str "1,2,3") (.list .int)
        = .ok (.list [.int 1, .int 2, .int 3])
    ∧ (∀ (v : Val) (T : PyType), v ≠ .none → (∀ s, v ≠ .str s) → (∀ l, v ≠ .list l) →
        ∃ m, convert_value_to_type v (.list T) = .error (.valueError m)) := by
  refine ⟨?_, ?_, ?_, ?_, ?_, ?_⟩
  · intro s l T r hp hc
    simp only [convert_value_to_type, convertBasic, hp, hc]
  · intro s T hp
    simp only [convert_value_to_type, convertBasic, hp]
  · intro s T w hp hw
    cases w with
    | list l => exact absurd rfl (hw l)
    | none => simp only [convert_value_to_type, convertBasic, hp]
    | bool b => simp only [convert_value_to_type, convertBasic, hp]
    | int n => simp only [convert_value_to_type, convertBasic, hp]
    | float q => simp only [convert_value_to_type, convertBasic, hp]
    | str s2 => simp only [convert_value_to_type, convertBasic, hp]
    | path p => simp only [convert_value_to_type, convertBasic, hp]
    | tup l => simp only [convert_value_to_type, convertBasic, hp]
    | dict d => simp only [convert_value_to_type, convertBasic, hp]
  · have hp : pyLiteralEval "[1, 2, 3]" = some (.list [.int 1, .int 2, .int 3]) := rfl
    simp only [convert_value_to_type, convertBasic, hp, convertEach]
    rfl
  · have hp : pyLiteralEval "1,2,3" = some (.tup [.int 1, .int 2, .int 3]) := rfl
    have htok : (pySplitComma "1,2,3").map (fun tok => Val.str (pyStrip tok))
        = [.str "1", .str "2", .str "3"] := rfl
    simp only [convert_value_to_type, convertBasic, hp, listFallback, htok, convertEach]
    rfl
  · intro v T hn hs hl
    cases v with
    | none => exact absurd rfl hn
    | str s => exact absurd rfl (hs s)
    | list l => exact absurd rfl (hl l)
    | bool b =>
        exact ⟨"Expected list or string representation of a list, got "
          ++ pyTypeNameOf (Val.bool b), by simp only [convert_value_to_type, convertBasic]⟩
    | int n =>
        exact ⟨"Expected list or string representation of a list, got "
          ++ pyTypeNameOf (Val.int n), by simp only [convert_value_to_type, convertBasic]⟩
    | float q =>
        exact ⟨"Expected list or string representation of a list, got "
          ++ pyTypeNameOf (Val.float q), by simp only [convert_value_to_type, convertBasic]⟩
    | path p =>
        exact ⟨"Expected list or string representation of a list, got "
          ++ pyTypeNameOf (Val.path p), by simp only [convert_value_to_type, convertBasic]⟩
    | tup l =>
        exact ⟨"Expected list or string representation of a list, got "
          ++ pyTypeNameOf (Val.tup l), by simp only [convert_value_to_type, convertBasic]⟩
    | dict d =>
        exact ⟨"Expected list or string representation of a list, got "
          ++ pyTypeNameOf (Val.dict d), by simp only [convert_value_to_type, convertBasic]⟩

theorem claim_c7_witness :
    convert_value_to_type (.str "[7]") (.list .int) = .ok (.list [.int 7])
    ∧ convert_value_to_type (.str "[") (.list .int) = listFallback "[" .int
    ∧ convert_value_to_type (.str "5") (.list .int) = listFallback "5" .int
    ∧ convert_value_to_type (.bool true) (.list .int)
        = .error (.valueError "Expected list or string representation of a list, got bool") := by
  refine ⟨?_, ?_, ?_, ?_⟩
  · exact claim_c7.1 "[7]" [.int 7] .int [.int 7] rfl
      (by simp only [convertEach, convert_value_to_type, convertBasic]; rfl)
  · exact claim_c7.2.1 "[" .int rfl
  · exact claim_c7.2.2.1 "5" .int (.int 5) rfl (fun l h => Val.noConfusion h)
  · obtain ⟨m, hm⟩ := claim_c7.2.2.2.2.2 (.bool true) .int
      (fun h => Val.noConfusion h) (fun s h => Val.noConfusion h) (fun l h => Val.noConfusion h)
    simp only [convert_value_to_type, convertBasic]
    rfl

/-- C8: textual bool coercion returns true exactly when the lowercased
input is one of true, yes, 1, y, and false for every other string, with
case-insensitive matching; every non-null non-textual input is
truth-tested directly (a null input is returned unchanged by the
null-propagation rule that precedes every coercion). -/
theorem claim_c8 :
    (∀ s : String, convert_value_to_type (.str s) .bool
        = .ok (.bool (["true", "yes", "1", "y"].contains (pyLower s))))
    ∧ convert_value_to_type (.str "YES") .bool = .ok (.bool true)
    ∧ convert_value_to_type (.str "no") .bool = .ok (.bool false)
    ∧ convert_value_to_type (.str "1") .bool = .ok (.bool true)
    ∧ convert_value_to_type (.str "0") .bool = .ok (.bool false)
    ∧ (∀ v : Val, v ≠ .none → (∀ s, v ≠ .str s) →
        convert_value_to_type v .bool = .ok (.bool v.truthy)) := by
  refine ⟨?_, ?_, ?_, ?_, ?_, ?_⟩
  · intro s
    simp only [convert_value_to_type, convertBasic]
  · simp only [convert_value_to_type, convertBasic]; rfl
  · simp only [convert_value_to_type, convertBasic]; rfl
  · simp only [convert_value_to_type, convertBasic]; rfl
  · simp only [convert_value_to_type, convertBasic]; rfl
  · intro v hn hs
    cases v with
    | none => exact absurd rfl hn
    | str s => exact absurd rfl (hs s)
    | bool b => simp only [convert_value_to_type, convertBasic]
    | int n => simp only [convert_value_to_type, convertBasic]
    | float q => simp only [convert_value_to_type, convertBasic]
    | path p => simp only [convert_value_to_type, convertBasic]
    | list l => simp only [convert_value_to_type, convertBasic]
    | tup l => simp only [convert_value_to_type, convertBasic]
    | dict d => simp only [convert_value_to_type, convertBasic]

theorem claim_c8_witness :
    convert_value_to_type (.str "TrUe") .bool
      = .ok (.bool (["true", "yes", "1", "y"].contains (pyLower "TrUe")))
    ∧ convert_value_to_type (.int 5) .bool = .ok (.bool (Val.int 5).truthy) :=
  ⟨claim_c8.1 "TrUe",
   claim_c8.2.2.2.2.2 (.int 5) (fun h => Val.noConfusion h) (fun _ h => Val.noConfusion h)⟩

theorem buildFields_congr (flds : List (String × PyType × Option Val)) (d1 d2 : Dict)
    (h : ∀ n ∈ flds.map (fun f => f.1), lookup d1 n = lookup d2 n) :
    buildFields (.dict d1) flds = buildFields (.dict d2) flds := by
  induction flds with
  | nil => simp only [buildFields]
  | cons fld rest ih =>
      obtain ⟨n, t, dflt⟩ := fld
      have hn : lookup d1 n = lookup d2 n := h n (by simp)
      have hrest : ∀ n2 ∈ rest.map (fun f => f.1), lookup d1 n2 = lookup d2 n2 :=
        fun n2 hn2 => h n2 (by simp [hn2])
      simp only [buildFields]
      rw [show pyContainsVal (Val.dict d1) n = pyContainsVal (Val.dict d2) n by
            simp [pyContainsVal, containsKey, hn],
          show pyGetItemVal (Val.dict d1) n = pyGetItemVal (Val.dict d2) n by
            simp [pyGetItemVal, hn],
          ih hrest]

theorem buildFields_absent (flds : List (String × PyType × Option Val)) (d : Dict)
    (fv : List (String × Val)) (hbf : buildFields (.dict d) flds = .ok fv) :
    ∀ n, lookup d n = Option.none → lookup fv n = Option.none := by
  induction flds generalizing fv with
  | nil =>
      intro n hn
      simp only [buildFields] at hbf
      injection hbf with hbf
      subst hbf
      rfl
  | cons fld rest ih =>
      intro n hn
      obtain ⟨n2, t, dflt⟩ := fld
      simp only [buildFields, pyContainsVal] at hbf
      cases hl2 : lookup d n2 with
      | none =>
          simp only [containsKey, hl2, Option.isSome_none] at hbf
          exact ih fv hbf n hn
      | some v =>
          simp only [containsKey, hl2, Option.isSome_some, pyGetItemVal] at hbf
          cases hcf : convField v t with
          | error e => rw [hcf] at hbf; exact Except.noConfusion hbf
          | ok w =>
              rw [hcf] at hbf
              cases hbr : buildFields (Val.dict d) rest with
              | error e => rw [hbr] at hbf; exact Except.noConfusion hbf
              | ok ws =>
                  rw [hbr] at hbf
                  injection hbf with hbf
                  subst hbf
                  have hne : n2 ≠ n := by
                    intro he
                    rw [he, hn] at hl2
                    exact Option.noConfusion hl2
                  rw [lookup, if_neg hne]
                  exact ih ws hbr n hn

theorem initFields_default (flds : List (String × PyType × Option Val))
    (fv ws : List (String × Val)) (n : String) (t : PyType) (dflt : Val)
    (hnd : (flds.map (fun f => f.1)).Nodup)
    (hmem : (n, t, some dflt) ∈ flds)
    (hfv : lookup fv n = Option.none)
    (hin : initFields fv flds = .ok ws) :
    lookup ws n = some dflt := by
  induction flds generalizing ws with
  | nil => exact absurd hmem (List.not_mem_nil _)
  | cons fld rest ih =>
      obtain ⟨n2, t2, dflt2⟩ := fld
      rcases List.mem_cons.mp hmem with hhead | htail
      · injection hhead with h1 h2
        injection h2 with h2a h2b
        subst h1 h2b
        simp only [initFields, hfv] at hin
        cases hir : initFields fv rest with
        | error e => rw [hir] at hin; exact Except.noConfusion hin
        | ok ws2 =>
            rw [hir] at hin
            injection hin with hin
            subst hin
            simp [lookup]
      · have hne : n2 ≠ n := by
          intro he
          subst he
          have : n2 ∈ rest.map (fun f => f.1) :=
            List.mem_map.mpr ⟨(n2, t, some dflt), htail, rfl⟩
          exact (List.nodup_cons.mp hnd).1 this
        have hnd2 : (rest.map (fun f => f.1)).Nodup := (List.nodup_cons.mp hnd).2
        simp only [initFields] at hin
        cases hl2 : lookup fv n2 with
        | some v =>
            rw [hl2] at hin
            cases hir : initFields fv rest with
            | error e => rw [hir] at hin; exact Except.noConfusion hin
            | ok ws2 =>
                rw [hir] at hin
                injection hin with hin
                subst hin
                rw [lookup, if_neg hne]
                exact ih ws2 hnd2 htail hir
        | none =>
            rw [hl2] at hin
            cases dflt2 with
            | some d2 =>
                cases hir : initFields fv rest with
                | error e => rw [hir] at hin; exact Except.noConfusion hin
                | ok ws2 =>
                    rw [hir] at hin
                    injection hin with hin
                    subst hin
                    rw [lookup, if_neg hne]
                    exact ih ws2 hnd2 htail hir
            | none => exact Except.noConfusion hin

/-- C9: materializing a typed object from a mapping consults only the
entries whose keys are declared fields of the schema — two mappings that
agree on every declared field materialize identically, so extra unknown
keys are silently dropped and never cause an error — and a declared field
missing from the mapping falls back to the schema's own default. -/
theorem claim_c9 :
    (∀ (flds : List (String × PyType × Option Val)) (d1 d2 : Dict),
        (∀ n ∈ flds.map (fun f => f.1), lookup d1 n = lookup d2 n) →
        dict_to_dataclass (.dict d1) flds = dict_to_dataclass (.dict d2) flds)
    ∧ (∀ (flds : List (String × PyType × Option Val)) (d : Dict) (k : String) (v : Val),
        k ∉ flds.map (fun f => f.1) →
        dict_to_dataclass (.dict ((k, v) :: d)) flds = dict_to_dataclass (.dict d) flds)
    ∧ (∀ (flds : List (String × PyType × Option Val)) (d : Dict) (n : String)
        (t : PyType) (dflt : Val) (inst : List (String × Val)),
        (flds.map (fun f => f.1)).Nodup →
        (n, t, some dflt) ∈ flds →
        lookup d n = Option.none →
        dict_to_dataclass (.dict d) flds = .ok (.dict inst) →
        lookup inst n = some dflt) := by
  have hcongr : ∀ (flds : List (String × PyType × Option Val)) (d1 d2 : Dict),
      (∀ n ∈ flds.map (fun f => f.1), lookup d1 n = lookup d2 n) →
      dict_to_dataclass (.dict d1) flds = dict_to_dataclass (.dict d2) flds := by
    intro flds d1 d2 h
    simp only [dict_to_dataclass, buildFields_congr flds d1 d2 h]
  refine ⟨hcongr, ?_, ?_⟩
  · intro flds d k v hk
    apply hcongr
    intro n hn
    have hne : k ≠ n := fun he => hk (he ▸ hn)
    rw [lookup, if_neg hne]
  · intro flds d n t dflt inst hnd hmem hdn hok
    simp only [dict_to_dataclass] at hok
    cases hbf : buildFields (Val.dict d) flds with
    | error e => rw [hbf] at hok; exact Except.noConfusion hok
    | ok fv =>
        rw [hbf] at hok
        change Except.map (fun ws => Val.dict ws) (initFields fv flds)
          = Except.ok (Val.dict inst) at hok
        cases hin : initFields fv flds with
        | error e => rw [hin] at hok; exact Except.noConfusion hok
        | ok ws =>
            rw [hin] at hok
            simp only [Except.map] at hok
            injection hok with hok
            injection hok with hok
            rw [← hok]
            have hfv : lookup fv n = Option.none :=
              buildFields_absent flds d fv hbf n hdn
            exact initFields_default flds fv ws n t dflt hnd hmem hfv hin

theorem claim_c9_witness :
    dict_to_dataclass
        (.dict (("junk", Val.int 9) :: [("a", Val.int 1)]))
        [("a", PyType.int, some (Val.int 0)), ("b", PyType.str, some (Val.str "d"))]
      = dict_to_dataclass (.dict [("a", Val.int 1)])
        [("a", PyType.int, some (Val.int 0)), ("b", PyType.str, some (Val.str "d"))]
    ∧ lookup [("a", Val.int 5), ("b", Val.str "d")] "b" = some (Val.str "d") := by
  constructor
  · exact claim_c9.2.1
      [("a", PyType.int, some (Val.int 0)), ("b", PyType.str, some (Val.str "d"))]
      [("a", Val.int 1)] "junk" (Val.int 9) (by simp)
  · exact claim_c9.2.2
      [("a", PyType.int, some (Val.int 0)), ("b", PyType.str, some (Val.str "d"))]
      [("a", Val.int 5)] "b" PyType.str (Val.str "d")
      [("a", Val.int 5), ("b", Val.str "d")]
      (by simp) (by simp) rfl
      (by
        have hc : convert_value_to_type (Val.int 5) PyType.int = .ok (Val.int 5) := by
          simp only [convert_value_to_type, convertBasic, pyIntOf]
          rfl
        have hl1 : lookup [("a", Val.int 5)] "a" = some (Val.int 5) := rfl
        have hl2 : lookup [("a", Val.int 5)] "b" = Option.none := rfl
        simp only [dict_to_dataclass, buildFields, pyContainsVal, pyGetItemVal, containsKey,
          hl1, hl2, Option.isSome_some, Option.isSome_none, convField, hc, initFields,
          Except.map])
